import Mathlib

/-!
Verification development for the quantized 2-D convolution layer
(`tensorlayer/layers/convolution/quan_conv.py`).

The layer constructor `QuantizedConv2d.__init__` is embedded from the source
file.  The two numeric transforms `quantize_active_overflow` and
`quantize_weight_overflow` are imported there from `tensorlayer.layers.utils`,
which is not part of the sources at hand; they are therefore modelled from the
specification (sections 4.1 and 4.2), as are the external collaborators
(convolution primitive, parameter service) from section 6.

Tensors are modelled as flat lists of rationals (elementwise quantization over
a dense tensor, spec section 1).  The straight-through-estimator gradient is
modelled with forward-mode dual numbers in which the rounding primitive carries
the identity derivative proxy.
-/

/-- Modelled from the spec (section 4.1, step 2): elementwise sign with the
convention that the sign of zero is `+1`. -/
def qsign (x : ℚ) : ℚ := if x < 0 then -1 else 1

/-- Rounding to the nearest integer (halves up), written with `Rat.floor` so
that it evaluates on concrete rationals; `qround_eq_round` identifies it with
Mathlib's `round`. -/
def qround (x : ℚ) : ℤ := Rat.floor (x + 1 / 2)

/-- Modelled from the spec (sections 4.1 step 3 and 4.2): uniform quantization
of a scalar to `2^k` levels over `[0,1]` via `round(x * (2^k - 1)) / (2^k - 1)`.
The missing code is `_quantize_overflow` in `tensorlayer/layers/utils.py`. -/
def quantizeLevels (k : Nat) (x : ℚ) : ℚ :=
  ((qround (x * ((2 : ℚ) ^ k - 1)) : ℤ) : ℚ) / ((2 : ℚ) ^ k - 1)

/-- Modelled from the spec (section 4.2): the activation quantizer
`quantize_active_overflow` (missing from the sources, lives in
`tensorlayer/layers/utils.py`) quantizes each element to `2^bitA` uniform
levels over the assumed fixed range, with no dynamic-range normalization
and no clipping. -/
def quantize_active_overflow (X : List ℚ) (bitA : Nat) : List ℚ :=
  X.map (quantizeLevels bitA)

/-- Global dynamic range of a weight tensor: the maximum absolute value over
the entire tensor (spec section 4.1 step 1), `0` for the empty tensor. -/
def maxabs (W : List ℚ) : ℚ :=
  W.foldr (fun x m => max |x| m) 0

/-- Modelled from the spec (section 4.1, step 3): the elementwise kernel of
the weight quantizer at dynamic range `s` — normalize `w` into `[0,1]` via
`w / (2*s) + 1/2`, quantize to `2^bitW` levels, and map back to
`[-s, s]`. -/
def quantizeWeightElem (bitW : Nat) (s : ℚ) (w : ℚ) : ℚ :=
  (quantizeLevels bitW (w / (2 * s) + 1 / 2) - 1 / 2) * (2 * s)

/-- Modelled from the spec (section 4.1): the weight quantizer
`quantize_weight_overflow` (missing from the sources, lives in
`tensorlayer/layers/utils.py`).  Computes the global dynamic range
`s = max(abs W)`; returns a zero tensor when `s = 0` (the documented
degenerate-input convention, section 4.1 failure clause); applies the binary
sign rule when `bitW = 1`; otherwise normalizes into `[0,1]`, quantizes to
`2^bitW` levels, and maps back to `[-s, s]`. -/
def quantize_weight_overflow (W : List ℚ) (bitW : Nat) : List ℚ :=
  let s := maxabs W
  if s = 0 then W.map fun _ => 0
  else if bitW = 1 then W.map fun w => qsign w * s
  else W.map (quantizeWeightElem bitW s)

/-- A forward-mode dual number: forward value together with the derivative
(seeded with the upstream gradient) carried along the computation. -/
structure Dual where
  val : ℚ
  dv : ℚ
deriving DecidableEq

/-- Dual multiplication by a constant scalar. -/
def Dual.mulC (d : Dual) (c : ℚ) : Dual := ⟨d.val * c, d.dv * c⟩

/-- Dual division by a constant scalar. -/
def Dual.divC (d : Dual) (c : ℚ) : Dual := ⟨d.val / c, d.dv / c⟩

/-- Dual addition of a constant scalar. -/
def Dual.addC (d : Dual) (c : ℚ) : Dual := ⟨d.val + c, d.dv⟩

/-- Modelled from the spec (section 3, GradientProxy; section 9): the rounding
primitive with its straight-through gradient override — the forward pass uses
the discrete rounded value, the backward pass treats rounding as the identity
function. -/
def steRound (d : Dual) : Dual := ⟨((qround d.val : ℤ) : ℚ), d.dv⟩

/-- Modelled from the spec (sections 4.1 and 4.2): the `2^k`-level uniform
quantization kernel on dual numbers, built from the primitive operations with
`steRound` carrying the straight-through derivative. -/
def quantizeLevels_D (k : Nat) (d : Dual) : Dual :=
  (steRound (d.mulC ((2 : ℚ) ^ k - 1))).divC ((2 : ℚ) ^ k - 1)

/-- Modelled from the spec (section 4.2): the activation quantizer on dual
numbers — elementwise `quantizeLevels_D` with no range normalization. -/
def quantize_active_overflow_D (X : List Dual) (bitA : Nat) : List Dual :=
  X.map (quantizeLevels_D bitA)

/-- Modelled from the spec (section 4.1): the weight quantizer on dual
numbers.  The dynamic range `s` is computed from forward values only (the
backward pass propagates the incoming gradient unchanged, section 4.1 step 4).
In the degenerate `s = 0` branch the forward output is the zero tensor
(section 4.1 failure clause) while the backward pass remains the identity
(section 3, GradientProxy: the transform behaves as the identity on the
backward pass regardless of the forward computation); the `bitW = 1` branch
applies the sign rule with the same straight-through backward. -/
def quantize_weight_overflow_D (W : List Dual) (bitW : Nat) : List Dual :=
  let s := maxabs (W.map Dual.val)
  if s = 0 then W.map fun d => ⟨0, d.dv⟩
  else if bitW = 1 then W.map fun d => ⟨qsign d.val * s, d.dv⟩
  else W.map fun d =>
    ((quantizeLevels_D bitW ((d.divC (2 * s)).addC (1 / 2))).addC (-(1 / 2))).mulC (2 * s)

/-! ## Symbolic embedding of the layer constructor

`QuantizedConv2d.__init__` builds a computation graph; we embed the graph
nodes symbolically.  The quantizers, the convolution primitive, the bias add
and the activation appear as opaque graph constructors — only the wiring
performed by the constructor in `quan_conv.py` is under study here.
The `use_cudnn_on_gpu` and `data_format` arguments are opaque pass-throughs
to the convolution primitive and are not modelled. -/

/-- A symbolic tensor expression: the graph nodes the constructor can build. -/
inductive TExpr where
  /-- The previous layer's output tensor. -/
  | input : TExpr
  /-- A weight variable created by the parameter service, with its shape. -/
  | varW : List Nat → TExpr
  /-- A bias variable created by the parameter service, with its length. -/
  | varB : Nat → TExpr
  /-- Application of `quantize_active_overflow` at a bit width. -/
  | quantAct : TExpr → Nat → TExpr
  /-- Application of `quantize_weight_overflow` at a bit width. -/
  | quantWeight : TExpr → Nat → TExpr
  /-- The external convolution primitive: input, filter, 4-component strides,
  padding mode. -/
  | conv2d : TExpr → TExpr → Nat × Nat × Nat × Nat → String → TExpr
  /-- The external bias-add primitive: input, bias. -/
  | biasAdd : TExpr → TExpr → TExpr
  /-- A named activation function applied to a tensor. -/
  | act : String → TExpr → TExpr
deriving DecidableEq

/-- The construction steps of `QuantizedConv2d.__init__`, in the order the
source performs them (used to state the fixed step order). -/
inductive Event where
  /-- Line 110: `self.inputs = quantize_active_overflow(self.inputs, bitA)`. -/
  | quantActInputs : Nat → Event
  /-- Lines 128-130: creation of the floating-point weight variable. -/
  | createVarW : List Nat → Event
  /-- Line 132: `W = quantize_weight_overflow(W, bitW)`. -/
  | quantWeightW : Nat → Event
  /-- Lines 134-137: `self.outputs = tf.nn.conv2d(...)`. -/
  | runConv2d : Event
  /-- Lines 139-144: bias variable creation and `tf.nn.bias_add`. -/
  | addBias : Event
  /-- Line 146: `self.outputs = self._apply_activation(self.outputs)`. -/
  | appliedActivation : Event
  /-- Line 148: `self._add_layers(self.outputs)`. -/
  | addLayers : Event
  /-- Line 149: `self._add_params(self._local_weights)`. -/
  | addParams : Event
deriving DecidableEq

/-- The errors the constructor can raise: the unimplemented-gemm `Exception`,
the strides-length `ValueError`, and the invalid-padding rejection raised by
the external convolution primitive. -/
inductive InitError where
  | gemmUnimplemented : InitError
  | stridesLen : InitError
  | invalidPadding : InitError
deriving DecidableEq

/-- The previous layer as the constructor observes it: its output tensor and
the statically known last dimension of its shape (`none` models
`int(prev_layer.outputs.get_shape()[-1])` raising `TypeError`). -/
structure PrevLayer where
  outputs : TExpr
  lastDim : Option Nat
deriving DecidableEq

/-- Modelled from the spec (section 6): the external activation-function
collaborator — any named unary function, `none` meaning identity. -/
def applyActivation (a : Option String) (e : TExpr) : TExpr :=
  match a with
  | some f => TExpr.act f e
  | none => e

/-- The padding modes the convolution primitive accepts. -/
def validPadding (p : String) : Bool :=
  p = "SAME" || p = "VALID"

/-- Modelled from the spec (section 6): the external convolution primitive
`conv2d`, whose padding argument admits exactly `"SAME"` and `"VALID"`; any
other value is rejected when the primitive is invoked. -/
def conv2dPrim (inp filt : TExpr) (strides : Nat × Nat × Nat × Nat)
    (padding : String) : Except InitError TExpr :=
  if validPadding padding then Except.ok (TExpr.conv2d inp filt strides padding)
  else Except.error InitError.invalidPadding

/-- The mutable state of the layer object during construction: its `inputs`
and `outputs` attributes, the `_local_weights` list filled by
`_get_tf_variable`, whether the unknown-channel warning was logged, and the
trace of construction steps performed so far. -/
structure QuantizedConv2dState where
  inputs : TExpr
  outputs : Option TExpr
  local_weights : List TExpr
  warned : Bool
  trace : List Event
deriving DecidableEq

/-- Embedding of `QuantizedConv2d.__init__` (`quan_conv.py` lines 100-149).
Returns the layer state together with the error raised, if any; when an error
is raised the state shows the attributes already set at that point.

Step by step against the source: the base-class constructor stores
`prev_layer.outputs` into `self.inputs`; line 110 replaces `self.inputs` with
its `bitA`-quantized version; line 112 raises on `use_gemm`; line 115 raises
when `len(strides) != 2`; lines 118-122 resolve the input channel count,
falling back to `1` with a warning when the conversion raises `TypeError`;
lines 124-125 build the 4-component weight shape and strides; lines 128-130
create the weight variable (registered in `_local_weights`); line 132
quantizes it; lines 134-137 call the convolution primitive; lines 139-144
optionally create the bias variable and add it; line 146 applies the
activation; lines 148-149 register outputs and parameters. -/
def QuantizedConv2d_init (prev : PrevLayer) (n_filter : Nat)
    (filter_size : Nat × Nat) (strides : List Nat) (padding : String)
    (act : Option String) (bitW bitA : Nat) (use_gemm : Bool)
    (b_init : Bool) : QuantizedConv2dState × Option InitError :=
  let s0 : QuantizedConv2dState := ⟨prev.outputs, none, [], false, []⟩
  let s1 : QuantizedConv2dState :=
    { s0 with inputs := TExpr.quantAct s0.inputs bitA,
              trace := s0.trace ++ [Event.quantActInputs bitA] }
  if use_gemm then (s1, some InitError.gemmUnimplemented)
  else if strides.length ≠ 2 then (s1, some InitError.stridesLen)
  else
    let input_channels : Nat := prev.lastDim.getD 1
    let warned : Bool := prev.lastDim.isNone
    let shape : List Nat := [filter_size.1, filter_size.2, input_channels, n_filter]
    let strides4 : Nat × Nat × Nat × Nat := (1, strides.getD 0 0, strides.getD 1 0, 1)
    let Wvar := TExpr.varW shape
    let s2 : QuantizedConv2dState :=
      { s1 with warned := warned,
                local_weights := s1.local_weights ++ [Wvar],
                trace := s1.trace ++ [Event.createVarW shape] }
    let Wq := TExpr.quantWeight Wvar bitW
    let s3 : QuantizedConv2dState :=
      { s2 with trace := s2.trace ++ [Event.quantWeightW bitW] }
    match conv2dPrim s3.inputs Wq strides4 padding with
    | Except.error e => (s3, some e)
    | Except.ok out0 =>
      let s4 : QuantizedConv2dState :=
        { s3 with outputs := some out0, trace := s3.trace ++ [Event.runConv2d] }
      let s5 : QuantizedConv2dState :=
        if b_init then
          { s4 with outputs := some (TExpr.biasAdd out0 (TExpr.varB n_filter)),
                    local_weights := s4.local_weights ++ [TExpr.varB n_filter],
                    trace := s4.trace ++ [Event.addBias] }
        else s4
      let out1 := applyActivation act (s5.outputs.getD out0)
      let s6 : QuantizedConv2dState :=
        { s5 with outputs := some out1,
                  trace := s5.trace ++ [Event.appliedActivation,
                                        Event.addLayers, Event.addParams] }
      (s6, none)

/-- The 4-component strides recorded in the convolution node of an output
expression, reached through the bias-add and activation wrappers. -/
def stridesIn : TExpr → Option (Nat × Nat × Nat × Nat)
  | TExpr.conv2d _ _ s _ => some s
  | TExpr.biasAdd e _ => stridesIn e
  | TExpr.act _ e => stridesIn e
  | _ => none

/-- The shape of the weight variable feeding (through quantization) the
convolution node of an output expression. -/
def weightShapeIn : TExpr → Option (List Nat)
  | TExpr.conv2d _ (TExpr.quantWeight (TExpr.varW sh) _) _ _ => some sh
  | TExpr.biasAdd e _ => weightShapeIn e
  | TExpr.act _ e => weightShapeIn e
  | _ => none

/-- The tensor added as bias in an output expression, reached through the
activation wrapper. -/
def biasArgIn : TExpr → Option TExpr
  | TExpr.biasAdd _ b => some b
  | TExpr.act _ e => biasArgIn e
  | _ => none

/-! ## Helper lemmas about rounding and quantization levels -/

/-- The executable rounding agrees with Mathlib's `round`. -/
theorem qround_eq_round (x : ℚ) : qround x = round x := by
  rw [round_eq, qround]; rfl

/-- Rounding an integer returns it unchanged. -/
theorem qround_intCast (z : ℤ) : qround (z : ℚ) = z := by
  rw [qround_eq_round]; exact round_intCast z

/-- Rounding is monotone. -/
theorem qround_mono {x y : ℚ} (h : x ≤ y) : qround x ≤ qround y := by
  rw [qround_eq_round, qround_eq_round, round_eq, round_eq]
  exact Int.floor_le_floor (by linarith)

/-- Positivity of the level count `2^b - 1` for genuine bit widths. -/
theorem levels_pos {b : Nat} (hb : 1 ≤ b) : (0 : ℚ) < 2 ^ b - 1 := by
  have h2 : (1 : ℚ) < 2 ^ b := one_lt_pow₀ (by norm_num) (by omega)
  linarith

theorem levels_ne_zero {b : Nat} (hb : 1 ≤ b) : ((2 : ℚ) ^ b - 1) ≠ 0 :=
  ne_of_gt (levels_pos hb)

/-- Re-quantizing an already-quantized scalar at the same bit width is a
no-op. -/
theorem quantizeLevels_idem {b : Nat} (hb : 1 ≤ b) (x : ℚ) :
    quantizeLevels b (quantizeLevels b x) = quantizeLevels b x := by
  unfold quantizeLevels
  rw [div_mul_cancel₀ _ (levels_ne_zero hb), qround_intCast]

/-- Quantization fixes the lower range endpoint. -/
theorem quantizeLevels_zero {b : Nat} : quantizeLevels b 0 = 0 := by
  unfold quantizeLevels
  rw [zero_mul, show ((0 : ℚ)) = ((0 : ℤ) : ℚ) by norm_num, qround_intCast]
  simp

/-- Quantization fixes the upper range endpoint. -/
theorem quantizeLevels_one {b : Nat} (hb : 1 ≤ b) : quantizeLevels b 1 = 1 := by
  unfold quantizeLevels
  have hcast : ((2 : ℚ) ^ b - 1) = ((2 ^ b - 1 : ℤ) : ℚ) := by push_cast; ring
  rw [one_mul, hcast, qround_intCast, div_self (by rw [← hcast]; exact levels_ne_zero hb)]

/-- Rounding stays below any integer bound on the argument. -/
theorem qround_le_intCast {x : ℚ} {z : ℤ} (h : x ≤ (z : ℚ)) : qround x ≤ z := by
  have hm := qround_mono h
  rwa [qround_intCast] at hm

/-- Rounding stays above any integer bound on the argument. -/
theorem intCast_le_qround {x : ℚ} {z : ℤ} (h : (z : ℚ) ≤ x) : z ≤ qround x := by
  have hm := qround_mono h
  rwa [qround_intCast] at hm

/-- Quantization maps `[0,1]` into `[0,∞)`. -/
theorem quantizeLevels_nonneg {b : Nat} (hb : 1 ≤ b) {x : ℚ} (h0 : 0 ≤ x) :
    0 ≤ quantizeLevels b x := by
  unfold quantizeLevels
  apply div_nonneg _ (le_of_lt (levels_pos hb))
  have h1 : (0 : ℤ) ≤ qround (x * (2 ^ b - 1)) := by
    apply intCast_le_qround
    push_cast
    exact mul_nonneg h0 (le_of_lt (levels_pos hb))
  exact_mod_cast h1

/-- Quantization maps `[0,1]` into `(-∞,1]`. -/
theorem quantizeLevels_le_one {b : Nat} (hb : 1 ≤ b) {x : ℚ} (h1 : x ≤ 1) :
    quantizeLevels b x ≤ 1 := by
  unfold quantizeLevels
  rw [div_le_one (levels_pos hb)]
  have h2 : qround (x * (2 ^ b - 1)) ≤ (2 ^ b - 1 : ℤ) := by
    apply qround_le_intCast
    push_cast
    nlinarith [levels_pos hb]
  calc ((qround (x * (2 ^ b - 1)) : ℤ) : ℚ) ≤ ((2 ^ b - 1 : ℤ) : ℚ) := by exact_mod_cast h2
  _ = 2 ^ b - 1 := by push_cast; ring

/-! ## Helper lemmas about the dynamic range `maxabs` -/

theorem maxabs_nil : maxabs [] = 0 := rfl

theorem maxabs_cons (w : ℚ) (l : List ℚ) : maxabs (w :: l) = max |w| (maxabs l) := rfl

theorem maxabs_nonneg (W : List ℚ) : 0 ≤ maxabs W := by
  induction W with
  | nil => simp [maxabs_nil]
  | cons w l ih => rw [maxabs_cons]; exact le_max_of_le_right ih

theorem le_maxabs {W : List ℚ} {w : ℚ} (h : w ∈ W) : |w| ≤ maxabs W := by
  induction W with
  | nil => cases h
  | cons a l ih =>
    rw [maxabs_cons]
    rcases List.mem_cons.mp h with rfl | h
    · exact le_max_left _ _
    · exact le_trans (ih h) (le_max_right _ _)

theorem maxabs_le {W : List ℚ} {c : ℚ} (hc : 0 ≤ c) (h : ∀ w ∈ W, |w| ≤ c) :
    maxabs W ≤ c := by
  induction W with
  | nil => simpa [maxabs_nil] using hc
  | cons a l ih =>
    rw [maxabs_cons]
    exact max_le (h a (List.mem_cons_self a l))
      (ih fun w hw => h w (List.mem_cons_of_mem _ hw))

/-- A nonzero dynamic range is attained by some tensor element. -/
theorem maxabs_attained {W : List ℚ} (h : maxabs W ≠ 0) :
    ∃ w ∈ W, |w| = maxabs W := by
  induction W with
  | nil => exact absurd rfl h
  | cons a l ih =>
    rw [maxabs_cons] at h ⊢
    rcases le_total (maxabs l) |a| with hle | hle
    · exact ⟨a, List.mem_cons_self a l, (max_eq_left hle).symm⟩
    · rw [max_eq_right hle] at h ⊢
      obtain ⟨w, hw, hww⟩ := ih h
      exact ⟨w, List.mem_cons_of_mem _ hw, hww⟩

/-! ## Helper lemmas about the weight-quantizer kernel -/

/-- The positive extremal weight is a fixed point of the kernel. -/
theorem quantizeWeightElem_top {b : Nat} (hb : 1 ≤ b) {s : ℚ} (hs : s ≠ 0) :
    quantizeWeightElem b s s = s := by
  unfold quantizeWeightElem
  have harg : s / (2 * s) + 1 / 2 = 1 := by field_simp; ring
  rw [harg, quantizeLevels_one hb]
  ring

/-- The negative extremal weight is a fixed point of the kernel. -/
theorem quantizeWeightElem_bot {b : Nat} (hb : 1 ≤ b) {s : ℚ} (hs : s ≠ 0) :
    quantizeWeightElem b s (-s) = -s := by
  unfold quantizeWeightElem
  have harg : -s / (2 * s) + 1 / 2 = 0 := by field_simp; ring
  rw [harg, quantizeLevels_zero]
  ring

/-- The kernel never amplifies the dynamic range. -/
theorem abs_quantizeWeightElem_le {b : Nat} (hb : 1 ≤ b) {s w : ℚ}
    (hs : 0 < s) (hw : |w| ≤ s) : |quantizeWeightElem b s w| ≤ s := by
  have h2s : 0 < 2 * s := by linarith
  have hlo : -s ≤ w := (abs_le.mp hw).1
  have hhi : w ≤ s := (abs_le.mp hw).2
  have ht0 : 0 ≤ w / (2 * s) + 1 / 2 := by
    have hd : -(1 / 2 : ℚ) ≤ w / (2 * s) := by
      rw [le_div_iff₀ h2s]; linarith
    linarith
  have ht1 : w / (2 * s) + 1 / 2 ≤ 1 := by
    have hd : w / (2 * s) ≤ 1 / 2 := by
      rw [div_le_iff₀ h2s]; linarith
    linarith
  have hq0 := quantizeLevels_nonneg hb ht0
  have hq1 := quantizeLevels_le_one hb ht1
  unfold quantizeWeightElem
  rw [abs_mul, abs_of_pos h2s]
  have habs : |quantizeLevels b (w / (2 * s) + 1 / 2) - 1 / 2| ≤ 1 / 2 :=
    abs_le.mpr ⟨by linarith, by linarith⟩
  calc |quantizeLevels b (w / (2 * s) + 1 / 2) - 1 / 2| * (2 * s)
      ≤ (1 / 2) * (2 * s) := mul_le_mul_of_nonneg_right habs (le_of_lt h2s)
  _ = s := by ring

/-- The kernel is idempotent at a fixed dynamic range. -/
theorem quantizeWeightElem_idem {b : Nat} (hb : 1 ≤ b) {s : ℚ} (hs : s ≠ 0)
    (w : ℚ) : quantizeWeightElem b s (quantizeWeightElem b s w) =
      quantizeWeightElem b s w := by
  have h2s : (2 * s) ≠ 0 := mul_ne_zero two_ne_zero hs
  conv =>
    lhs
    rw [quantizeWeightElem]
  rw [show quantizeWeightElem b s w = (quantizeLevels b (w / (2 * s) + 1 / 2) - 1 / 2)
        * (2 * s) from rfl,
      mul_div_cancel_right₀ _ h2s, sub_add_cancel, quantizeLevels_idem hb]

/-- The weight quantizer's main branch preserves the dynamic range exactly. -/
theorem maxabs_map_quantizeWeightElem {b : Nat} (hb : 1 ≤ b) {W : List ℚ}
    (hs : maxabs W ≠ 0) :
    maxabs (W.map (quantizeWeightElem b (maxabs W))) = maxabs W := by
  have hspos : 0 < maxabs W := lt_of_le_of_ne (maxabs_nonneg W) (Ne.symm hs)
  apply le_antisymm
  · apply maxabs_le (le_of_lt hspos)
    intro y hy
    obtain ⟨w, hw, rfl⟩ := List.mem_map.mp hy
    exact abs_quantizeWeightElem_le hb hspos (le_maxabs hw)
  · obtain ⟨w, hw, hww⟩ := maxabs_attained hs
    rcases (abs_eq (le_of_lt hspos)).mp hww with rfl | rfl
    · have hmem := List.mem_map_of_mem (quantizeWeightElem b (maxabs W)) hw
      have := le_maxabs hmem
      rwa [quantizeWeightElem_top hb hs, abs_of_pos hspos] at this
    · have hmem := List.mem_map_of_mem (quantizeWeightElem b (maxabs W)) hw
      have := le_maxabs hmem
      rwa [quantizeWeightElem_bot hb hs, abs_neg, abs_of_pos hspos] at this

/-- The binary sign rule preserves the dynamic range exactly. -/
theorem maxabs_map_qsign {W : List ℚ} (hs : maxabs W ≠ 0) :
    maxabs (W.map fun w => qsign w * maxabs W) = maxabs W := by
  have hspos : 0 < maxabs W := lt_of_le_of_ne (maxabs_nonneg W) (Ne.symm hs)
  have habs : ∀ w : ℚ, |qsign w * maxabs W| = maxabs W := by
    intro w
    rw [abs_mul, abs_of_pos hspos]
    unfold qsign
    by_cases hw : w < 0 <;> simp [hw]
  apply le_antisymm
  · apply maxabs_le (le_of_lt hspos)
    intro y hy
    obtain ⟨w, hw, rfl⟩ := List.mem_map.mp hy
    rw [habs w]
  · obtain ⟨w, hw, _⟩ := maxabs_attained hs
    have hmem := List.mem_map_of_mem (fun w => qsign w * maxabs W) hw
    have := le_maxabs hmem
    rwa [habs w] at this

/-- The sign of a sign-quantized weight is the original sign. -/
theorem qsign_mul_self {s : ℚ} (hs : 0 < s) (w : ℚ) :
    qsign (qsign w * s) = qsign w := by
  unfold qsign
  by_cases hw : w < 0
  · rw [if_pos hw, if_pos (by nlinarith : (-1 : ℚ) * s < 0)]
  · rw [if_neg hw, if_neg (by nlinarith : ¬((1 : ℚ) * s < 0))]

/-! ## Generic list and dual-number lemmas -/

theorem list_map_ext {α β : Type} {l : List α} {f g : α → β}
    (h : ∀ a, f a = g a) : l.map f = l.map g := by
  induction l with
  | nil => rfl
  | cons a t ih => simp only [List.map_cons, h a, ih]

@[simp] theorem Dual.dv_mulC (d : Dual) (c : ℚ) : (d.mulC c).dv = d.dv * c := rfl

@[simp] theorem Dual.dv_divC (d : Dual) (c : ℚ) : (d.divC c).dv = d.dv / c := rfl

@[simp] theorem Dual.dv_addC (d : Dual) (c : ℚ) : (d.addC c).dv = d.dv := rfl

/-- The straight-through derivative of the level-quantization kernel is the
identity: the `* (2^k - 1)` and `/ (2^k - 1)` factors cancel around the
identity-gradient rounding. -/
theorem dv_quantizeLevels_D {k : Nat} (hk : 1 ≤ k) (d : Dual) :
    (quantizeLevels_D k d).dv = d.dv := by
  simp only [quantizeLevels_D, steRound, Dual.divC, Dual.mulC]
  exact mul_div_cancel_right₀ d.dv (levels_ne_zero hk)

/-- Reading the derivative components out of a tensor of duals seeded with
upstream gradient `g` gives back `g`. -/
theorem map_dv_zipWith (X g : List ℚ) (h : X.length = g.length) :
    (List.zipWith Dual.mk X g).map Dual.dv = g := by
  induction X generalizing g with
  | nil =>
    cases g with
    | nil => rfl
    | cons b u => simp at h
  | cons a t ih =>
    cases g with
    | nil => simp at h
    | cons b u =>
      simp only [List.zipWith_cons_cons, List.map_cons]
      have := ih u (by simpa using h)
      simp [this]

/-! ## Claim theorems: the quantization core -/

/-- C2: for every input tensor `X` and every upstream gradient `g`, the
gradient of `quantize_active_overflow` (and likewise
`quantize_weight_overflow`) with respect to its input equals `g` exactly —
the backward pass behaves as the identity, independent of the forward
rounding.  Stated over the dual-number embedding: seeding the derivative
components with `g` and pushing the tensor through either quantizer leaves
the derivative components equal to `g`. -/
theorem quantizers_ste_gradient_identity (X g : List ℚ) (bitW bitA : Nat)
    (hA : 1 ≤ bitA) (hW : 1 ≤ bitW) (hlen : X.length = g.length) :
    (quantize_active_overflow_D (List.zipWith Dual.mk X g) bitA).map Dual.dv = g
    ∧ (quantize_weight_overflow_D (List.zipWith Dual.mk X g) bitW).map Dual.dv
        = g := by
  have hbase : (List.zipWith Dual.mk X g).map Dual.dv = g := map_dv_zipWith X g hlen
  set l := List.zipWith Dual.mk X g with hl
  constructor
  · unfold quantize_active_overflow_D
    rw [List.map_map]
    exact (list_map_ext (g := Dual.dv) fun d => dv_quantizeLevels_D hA d).trans hbase
  · simp only [quantize_weight_overflow_D]
    split_ifs with h1 h2
    · rw [List.map_map]
      exact (list_map_ext (g := Dual.dv) fun d => rfl).trans hbase
    · rw [List.map_map]
      exact (list_map_ext (g := Dual.dv) fun d => rfl).trans hbase
    · have h2s : (2 * maxabs (l.map Dual.val)) ≠ 0 :=
        mul_ne_zero two_ne_zero h1
      rw [List.map_map]
      refine (list_map_ext (g := Dual.dv) fun d => ?_).trans hbase
      simp only [Function.comp_apply, Dual.dv_mulC, Dual.dv_addC,
        dv_quantizeLevels_D hW, Dual.dv_divC]
      exact div_mul_cancel₀ d.dv h2s

/-- Witness for C2 at a concrete tensor and gradient. -/
theorem quantizers_ste_gradient_identity_witness :
    (quantize_active_overflow_D
        (List.zipWith Dual.mk [1/2, -(1/3)] [5, 7]) 2).map Dual.dv = [5, 7]
    ∧ (quantize_weight_overflow_D
        (List.zipWith Dual.mk [1/2, -(1/3)] [5, 7]) 3).map Dual.dv = [5, 7] :=
  quantizers_ste_gradient_identity [1/2, -(1/3)] [5, 7] 3 2
    (by decide) (by decide) (by decide)

/-- C8: for every bit width `b ≥ 1`, the weight quantizer maps an all-zero
tensor to the all-zero tensor of the same shape, without a division by the
(zero) dynamic range. -/
theorem quantize_weight_overflow_zeros (k b : Nat) (hb : 1 ≤ b) :
    quantize_weight_overflow (List.replicate k 0) b = List.replicate k 0 := by
  have hz : maxabs (List.replicate k 0) = 0 := by
    refine le_antisymm (maxabs_le le_rfl fun w hw => ?_) (maxabs_nonneg _)
    rw [List.eq_of_mem_replicate hw]
    simp
  simp only [quantize_weight_overflow]
  rw [if_pos hz]
  simp

/-- Witness for C8 at a concrete shape and bit width. -/
theorem quantize_weight_overflow_zeros_witness :
    quantize_weight_overflow (List.replicate 3 0) 2 = List.replicate 3 0 :=
  quantize_weight_overflow_zeros 3 2 (by decide)

/-- C9: at a fixed bit width, both quantizers are idempotent — re-quantizing
an already-quantized tensor is a no-op. -/
theorem quantizers_idempotent (X : List ℚ) (b : Nat) (hb : 1 ≤ b) :
    quantize_active_overflow (quantize_active_overflow X b) b
      = quantize_active_overflow X b
    ∧ quantize_weight_overflow (quantize_weight_overflow X b) b
      = quantize_weight_overflow X b := by
  constructor
  · unfold quantize_active_overflow
    rw [List.map_map,
      list_map_ext (f := quantizeLevels b ∘ quantizeLevels b)
        (g := quantizeLevels b) (fun x => quantizeLevels_idem hb x)]
  · by_cases hs : maxabs X = 0
    · have hY : quantize_weight_overflow X b = X.map fun _ => (0 : ℚ) := by
        simp only [quantize_weight_overflow]; rw [if_pos hs]
      rw [hY]
      have hz : maxabs (X.map fun _ => (0 : ℚ)) = 0 := by
        refine le_antisymm (maxabs_le le_rfl fun w hw => ?_) (maxabs_nonneg _)
        obtain ⟨x, _, rfl⟩ := List.mem_map.mp hw
        simp
      simp only [quantize_weight_overflow]
      rw [if_pos hz, List.map_map]
      exact list_map_ext fun x => rfl
    · have hspos : 0 < maxabs X := lt_of_le_of_ne (maxabs_nonneg X) (Ne.symm hs)
      by_cases hb1 : b = 1
      · subst hb1
        have hY : quantize_weight_overflow X 1
            = X.map fun w => qsign w * maxabs X := by
          simp only [quantize_weight_overflow]; rw [if_neg hs, if_true]
        rw [hY]
        have hpre : maxabs (X.map fun w => qsign w * maxabs X) = maxabs X :=
          maxabs_map_qsign hs
        simp only [quantize_weight_overflow]
        rw [hpre, if_neg hs, if_true, List.map_map]
        exact list_map_ext fun w => by
          simp only [Function.comp_apply]
          rw [qsign_mul_self hspos w]
      · have hY : quantize_weight_overflow X b
            = X.map (quantizeWeightElem b (maxabs X)) := by
          simp only [quantize_weight_overflow]; rw [if_neg hs, if_neg hb1]
        rw [hY]
        have hpre : maxabs (X.map (quantizeWeightElem b (maxabs X))) = maxabs X :=
          maxabs_map_quantizeWeightElem hb hs
        simp only [quantize_weight_overflow]
        rw [hpre, if_neg hs, if_neg hb1, List.map_map]
        exact list_map_ext fun w => quantizeWeightElem_idem hb hs w

/-- Witness for C9 at a concrete tensor and bit width. -/
theorem quantizers_idempotent_witness :
    quantize_active_overflow (quantize_active_overflow [2/5, -(3/7)] 2) 2
      = quantize_active_overflow [2/5, -(3/7)] 2
    ∧ quantize_weight_overflow (quantize_weight_overflow [2/5, -(3/7)] 2) 2
      = quantize_weight_overflow [2/5, -(3/7)] 2 :=
  quantizers_idempotent [2/5, -(3/7)] 2 (by decide)

/-! ## Helper lemmas about the layer constructor -/

/-- Normal form of a successful construction: with valid strides and padding
and `use_gemm = False`, the constructor returns no error and the state fields
take their closed form. -/
theorem init_ok_eq (prev : PrevLayer) (n_filter : Nat) (fs : Nat × Nat)
    (strides : List Nat) (padding : String) (act : Option String)
    (bitW bitA : Nat) (b_init : Bool)
    (hst : strides.length = 2) (hp : validPadding padding = true) :
    QuantizedConv2d_init prev n_filter fs strides padding act bitW bitA
        false b_init
      = ({ inputs := TExpr.quantAct prev.outputs bitA,
           outputs := some (applyActivation act
             (if b_init then
               TExpr.biasAdd
                 (TExpr.conv2d (TExpr.quantAct prev.outputs bitA)
                   (TExpr.quantWeight
                     (TExpr.varW [fs.1, fs.2, prev.lastDim.getD 1, n_filter])
                     bitW)
                   (1, strides.getD 0 0, strides.getD 1 0, 1) padding)
                 (TExpr.varB n_filter)
             else
               TExpr.conv2d (TExpr.quantAct prev.outputs bitA)
                 (TExpr.quantWeight
                   (TExpr.varW [fs.1, fs.2, prev.lastDim.getD 1, n_filter])
                   bitW)
                 (1, strides.getD 0 0, strides.getD 1 0, 1) padding)),
           local_weights :=
             TExpr.varW [fs.1, fs.2, prev.lastDim.getD 1, n_filter]
               :: (if b_init then [TExpr.varB n_filter] else []),
           warned := prev.lastDim.isNone,
           trace := [Event.quantActInputs bitA,
               Event.createVarW [fs.1, fs.2, prev.lastDim.getD 1, n_filter],
               Event.quantWeightW bitW, Event.runConv2d]
             ++ (if b_init then [Event.addBias] else [])
             ++ [Event.appliedActivation, Event.addLayers, Event.addParams] },
         none) := by
  cases b_init <;>
    simp [QuantizedConv2d_init, conv2dPrim, hp, hst]

/-- A construction succeeds exactly when `use_gemm` is off, the strides have
two components, and the padding mode is accepted by the convolution
primitive. -/
theorem init_success_iff (prev : PrevLayer) (n_filter : Nat) (fs : Nat × Nat)
    (strides : List Nat) (padding : String) (act : Option String)
    (bitW bitA : Nat) (use_gemm b_init : Bool) :
    (QuantizedConv2d_init prev n_filter fs strides padding act bitW bitA
        use_gemm b_init).2 = none
      ↔ (use_gemm = false ∧ strides.length = 2
          ∧ validPadding padding = true) := by
  cases use_gemm <;>
    by_cases hst : strides.length = 2 <;>
      by_cases hp : validPadding padding = true <;>
        simp [QuantizedConv2d_init, conv2dPrim, hst, hp]

/-! ## Claim theorems: the layer constructor -/

/-- C1: every successful construction builds the forward computation in the
fixed order — quantize the input activations with `bitA`, create the
floating-point weight, quantize it with `bitW`, convolve the quantized
activations with the quantized weights, add the unquantized bias when
`b_init` is set, apply the configured activation (identity when `none`), and
finally register the output and the parameters.  Both the nesting of the
output expression and the recorded step trace exhibit this order. -/
theorem QuantizedConv2d_forward_order (prev : PrevLayer) (n_filter : Nat)
    (fs : Nat × Nat) (strides : List Nat) (padding : String)
    (act : Option String) (bitW bitA : Nat) (use_gemm b_init : Bool)
    (hok : (QuantizedConv2d_init prev n_filter fs strides padding act bitW
      bitA use_gemm b_init).2 = none) :
    (QuantizedConv2d_init prev n_filter fs strides padding act bitW bitA
        use_gemm b_init).1.outputs
      = some (applyActivation act
          (if b_init then
            TExpr.biasAdd
              (TExpr.conv2d (TExpr.quantAct prev.outputs bitA)
                (TExpr.quantWeight
                  (TExpr.varW [fs.1, fs.2, prev.lastDim.getD 1, n_filter])
                  bitW)
                (1, strides.getD 0 0, strides.getD 1 0, 1) padding)
              (TExpr.varB n_filter)
          else
            TExpr.conv2d (TExpr.quantAct prev.outputs bitA)
              (TExpr.quantWeight
                (TExpr.varW [fs.1, fs.2, prev.lastDim.getD 1, n_filter])
                bitW)
              (1, strides.getD 0 0, strides.getD 1 0, 1) padding))
    ∧ (QuantizedConv2d_init prev n_filter fs strides padding act bitW bitA
        use_gemm b_init).1.trace
      = [Event.quantActInputs bitA,
          Event.createVarW [fs.1, fs.2, prev.lastDim.getD 1, n_filter],
          Event.quantWeightW bitW, Event.runConv2d]
        ++ (if b_init then [Event.addBias] else [])
        ++ [Event.appliedActivation, Event.addLayers, Event.addParams] := by
  obtain ⟨hg, hst, hp⟩ := (init_success_iff prev n_filter fs strides padding
    act bitW bitA use_gemm b_init).mp hok
  subst hg
  rw [init_ok_eq prev n_filter fs strides padding act bitW bitA b_init hst hp]
  exact ⟨rfl, rfl⟩

/-- Witness for C1 at a concrete configuration with bias and activation. -/
theorem QuantizedConv2d_forward_order_witness :
    (QuantizedConv2d_init ⟨TExpr.input, some 3⟩ 4 (5, 5) [2, 2] "SAME"
        (some "relu") 2 3 false true).1.outputs
      = some (TExpr.act "relu"
          (TExpr.biasAdd
            (TExpr.conv2d (TExpr.quantAct TExpr.input 3)
              (TExpr.quantWeight (TExpr.varW [5, 5, 3, 4]) 2)
              (1, 2, 2, 1) "SAME")
            (TExpr.varB 4)))
    ∧ (QuantizedConv2d_init ⟨TExpr.input, some 3⟩ 4 (5, 5) [2, 2] "SAME"
        (some "relu") 2 3 false true).1.trace
      = [Event.quantActInputs 3, Event.createVarW [5, 5, 3, 4],
          Event.quantWeightW 2, Event.runConv2d, Event.addBias,
          Event.appliedActivation, Event.addLayers, Event.addParams] :=
  QuantizedConv2d_forward_order ⟨TExpr.input, some 3⟩ 4 (5, 5) [2, 2] "SAME"
    (some "relu") 2 3 false true rfl

/-- C3: `use_gemm = True` or a strides tuple without exactly 2 components is
rejected at construction time — `use_gemm` with the unimplemented-path
exception, a bad strides length with the `ValueError`.  The constructor
returns the error itself, so the failure is not deferred to forward-pass
execution. -/
theorem QuantizedConv2d_config_reject (prev : PrevLayer) (n_filter : Nat)
    (fs : Nat × Nat) (strides : List Nat) (padding : String)
    (act : Option String) (bitW bitA : Nat) (use_gemm b_init : Bool)
    (h : use_gemm = true ∨ strides.length ≠ 2) :
    (QuantizedConv2d_init prev n_filter fs strides padding act bitW bitA
        use_gemm b_init).2
      = some (if use_gemm then InitError.gemmUnimplemented
          else InitError.stridesLen) := by
  rcases h with hg | hst
  · simp [QuantizedConv2d_init, hg]
  · cases hg : use_gemm
    · simp [QuantizedConv2d_init, hst]
    · simp [QuantizedConv2d_init]

/-- Witness for C3 at a concrete bad-strides configuration. -/
theorem QuantizedConv2d_config_reject_witness :
    (QuantizedConv2d_init ⟨TExpr.input, some 3⟩ 4 (5, 5) [1, 1, 1] "SAME"
        none 8 8 false true).2
      = some (if false then InitError.gemmUnimplemented
          else InitError.stridesLen) :=
  QuantizedConv2d_config_reject ⟨TExpr.input, some 3⟩ 4 (5, 5) [1, 1, 1]
    "SAME" none 8 8 false true (by decide)

/-- C4: with the other configuration valid, construction succeeds exactly for
the padding modes `"SAME"` and `"VALID"`; every other padding value is
rejected with the invalid-padding error. -/
theorem QuantizedConv2d_padding_modes (prev : PrevLayer) (n_filter : Nat)
    (fs : Nat × Nat) (strides : List Nat) (padding : String)
    (act : Option String) (bitW bitA : Nat) (b_init : Bool)
    (hst : strides.length = 2) :
    ((QuantizedConv2d_init prev n_filter fs strides padding act bitW bitA
        false b_init).2 = none
      ↔ (padding = "SAME" ∨ padding = "VALID"))
    ∧ ((padding ≠ "SAME" ∧ padding ≠ "VALID") →
        (QuantizedConv2d_init prev n_filter fs strides padding act bitW bitA
          false b_init).2 = some InitError.invalidPadding) := by
  constructor
  · rw [init_success_iff prev n_filter fs strides padding act bitW bitA
      false b_init]
    simp [hst, validPadding]
  · rintro ⟨h1, h2⟩
    have hp : validPadding padding = false := by
      simp [validPadding, h1, h2]
    simp [QuantizedConv2d_init, conv2dPrim, hst, hp]

/-- Witness for C4 at a concrete rejected padding value. -/
theorem QuantizedConv2d_padding_modes_witness :
    (((QuantizedConv2d_init ⟨TExpr.input, some 3⟩ 4 (5, 5) [1, 1] "same"
        none 8 8 false true).2 = none
      ↔ ("same" = "SAME" ∨ "same" = "VALID"))
    ∧ (("same" ≠ "SAME" ∧ "same" ≠ "VALID") →
        (QuantizedConv2d_init ⟨TExpr.input, some 3⟩ 4 (5, 5) [1, 1] "same"
          none 8 8 false true).2 = some InitError.invalidPadding)) :=
  QuantizedConv2d_padding_modes ⟨TExpr.input, some 3⟩ 4 (5, 5) [1, 1] "same"
    none 8 8 true rfl

/-- C5: when the input channel count cannot be determined statically
(`lastDim = none`, modelling the `TypeError` on `int(...)`), construction
does not fail: the warning flag is set and the weight is created with input
channel count `1`. -/
theorem QuantizedConv2d_unknown_channels (prev : PrevLayer) (n_filter : Nat)
    (fs : Nat × Nat) (strides : List Nat) (padding : String)
    (act : Option String) (bitW bitA : Nat) (b_init : Bool)
    (hdim : prev.lastDim = none) (hst : strides.length = 2)
    (hp : validPadding padding = true) :
    (QuantizedConv2d_init prev n_filter fs strides padding act bitW bitA
        false b_init).2 = none
    ∧ (QuantizedConv2d_init prev n_filter fs strides padding act bitW bitA
        false b_init).1.warned = true
    ∧ (QuantizedConv2d_init prev n_filter fs strides padding act bitW bitA
        false b_init).1.local_weights.head?
      = some (TExpr.varW [fs.1, fs.2, 1, n_filter]) := by
  rw [init_ok_eq prev n_filter fs strides padding act bitW bitA b_init hst hp]
  refine ⟨rfl, ?_, ?_⟩
  · simp [hdim]
  · simp [hdim]

/-- Witness for C5 at a concrete unknown-channel previous layer. -/
theorem QuantizedConv2d_unknown_channels_witness :
    (QuantizedConv2d_init ⟨TExpr.input, none⟩ 4 (5, 5) [1, 1] "VALID"
        none 8 8 false true).2 = none
    ∧ (QuantizedConv2d_init ⟨TExpr.input, none⟩ 4 (5, 5) [1, 1] "VALID"
        none 8 8 false true).1.warned = true
    ∧ (QuantizedConv2d_init ⟨TExpr.input, none⟩ 4 (5, 5) [1, 1] "VALID"
        none 8 8 false true).1.local_weights.head?
      = some (TExpr.varW [5, 5, 1, 4]) :=
  QuantizedConv2d_unknown_channels ⟨TExpr.input, none⟩ 4 (5, 5) [1, 1]
    "VALID" none 8 8 true rfl rfl rfl

/-- C6: the registered trainable parameters are exactly the raw
(unquantized) weight variable and, when `b_init` is set, the raw bias
variable — never the quantized weight tensor; and the bias tensor fed to the
bias-add node is the raw bias variable, untouched by any quantization
node.  The quantized weight appears only inside the output expression, so
quantization is rebuilt from the stored full-precision variable. -/
theorem QuantizedConv2d_params_unquantized (prev : PrevLayer)
    (n_filter : Nat) (fs : Nat × Nat) (strides : List Nat) (padding : String)
    (act : Option String) (bitW bitA : Nat) (use_gemm b_init : Bool)
    (hok : (QuantizedConv2d_init prev n_filter fs strides padding act bitW
      bitA use_gemm b_init).2 = none) :
    (QuantizedConv2d_init prev n_filter fs strides padding act bitW bitA
        use_gemm b_init).1.local_weights
      = TExpr.varW [fs.1, fs.2, prev.lastDim.getD 1, n_filter]
          :: (if b_init then [TExpr.varB n_filter] else [])
    ∧ (b_init = true →
        ((QuantizedConv2d_init prev n_filter fs strides padding act bitW
          bitA use_gemm b_init).1.outputs.bind biasArgIn)
        = some (TExpr.varB n_filter)) := by
  obtain ⟨hg, hst, hp⟩ := (init_success_iff prev n_filter fs strides padding
    act bitW bitA use_gemm b_init).mp hok
  subst hg
  rw [init_ok_eq prev n_filter fs strides padding act bitW bitA b_init hst hp]
  refine ⟨rfl, fun hbi => ?_⟩
  subst hbi
  cases act <;> simp [applyActivation, biasArgIn]

/-- Witness for C6 at a concrete configuration with bias. -/
theorem QuantizedConv2d_params_unquantized_witness :
    (QuantizedConv2d_init ⟨TExpr.input, some 3⟩ 4 (5, 5) [2, 2] "SAME"
        none 2 3 false true).1.local_weights
      = TExpr.varW [5, 5, 3, 4]
          :: (if true then [TExpr.varB 4] else [])
    ∧ (true = true →
        ((QuantizedConv2d_init ⟨TExpr.input, some 3⟩ 4 (5, 5) [2, 2] "SAME"
          none 2 3 false true).1.outputs.bind biasArgIn)
        = some (TExpr.varB 4)) :=
  QuantizedConv2d_params_unquantized ⟨TExpr.input, some 3⟩ 4 (5, 5) [2, 2]
    "SAME" none 2 3 false true rfl

/-- C7: on every successful construction, the weight variable feeding the
convolution has shape `(filter_height, filter_width, input_channels,
n_filter)` and the 2-component strides `[s0, s1]` are expanded to
`(1, s0, s1, 1)` at the convolution node. -/
theorem QuantizedConv2d_shape_strides (prev : PrevLayer) (n_filter : Nat)
    (fs : Nat × Nat) (s0 s1 : Nat) (padding : String) (act : Option String)
    (bitW bitA : Nat) (use_gemm b_init : Bool)
    (hok : (QuantizedConv2d_init prev n_filter fs [s0, s1] padding act bitW
      bitA use_gemm b_init).2 = none) :
    ((QuantizedConv2d_init prev n_filter fs [s0, s1] padding act bitW bitA
        use_gemm b_init).1.outputs.bind weightShapeIn)
      = some [fs.1, fs.2, prev.lastDim.getD 1, n_filter]
    ∧ ((QuantizedConv2d_init prev n_filter fs [s0, s1] padding act bitW bitA
        use_gemm b_init).1.outputs.bind stridesIn)
      = some (1, s0, s1, 1) := by
  obtain ⟨hg, hst, hp⟩ := (init_success_iff prev n_filter fs [s0, s1] padding
    act bitW bitA use_gemm b_init).mp hok
  subst hg
  rw [init_ok_eq prev n_filter fs [s0, s1] padding act bitW bitA b_init hst hp]
  cases act <;> cases b_init <;>
    simp [applyActivation, weightShapeIn, stridesIn]

/-- Witness for C7 at a concrete configuration. -/
theorem QuantizedConv2d_shape_strides_witness :
    ((QuantizedConv2d_init ⟨TExpr.input, some 3⟩ 4 (5, 5) [2, 3] "VALID"
        (some "relu") 2 3 false false).1.outputs.bind weightShapeIn)
      = some [5, 5, 3, 4]
    ∧ ((QuantizedConv2d_init ⟨TExpr.input, some 3⟩ 4 (5, 5) [2, 3] "VALID"
        (some "relu") 2 3 false false).1.outputs.bind stridesIn)
      = some (1, 2, 3, 1) :=
  QuantizedConv2d_shape_strides ⟨TExpr.input, some 3⟩ 4 (5, 5) 2 3 "VALID"
    (some "relu") 2 3 false false rfl

/-- C10: when construction is rejected for `use_gemm = True` or a bad
strides length, the layer's `inputs` attribute has already been replaced by
its `bitA`-quantized version before the error is raised — the
activation-quantization step precedes all configuration validation. -/
theorem QuantizedConv2d_reject_after_quantAct (prev : PrevLayer)
    (n_filter : Nat) (fs : Nat × Nat) (strides : List Nat) (padding : String)
    (act : Option String) (bitW bitA : Nat) (use_gemm b_init : Bool)
    (h : use_gemm = true ∨ strides.length ≠ 2) :
    (∃ e, (QuantizedConv2d_init prev n_filter fs strides padding act bitW
        bitA use_gemm b_init).2 = some e)
    ∧ (QuantizedConv2d_init prev n_filter fs strides padding act bitW bitA
        use_gemm b_init).1.inputs = TExpr.quantAct prev.outputs bitA := by
  rcases h with hg | hst
  · exact ⟨⟨InitError.gemmUnimplemented, by simp [QuantizedConv2d_init, hg]⟩,
      by simp [QuantizedConv2d_init, hg]⟩
  · cases hg : use_gemm
    · exact ⟨⟨InitError.stridesLen, by simp [QuantizedConv2d_init, hst]⟩,
        by simp [QuantizedConv2d_init, hst]⟩
    · exact ⟨⟨InitError.gemmUnimplemented, by simp [QuantizedConv2d_init]⟩,
        by simp [QuantizedConv2d_init]⟩

/-- Witness for C10 at a concrete `use_gemm = True` configuration. -/
theorem QuantizedConv2d_reject_after_quantAct_witness :
    (∃ e, (QuantizedConv2d_init ⟨TExpr.input, some 3⟩ 4 (5, 5) [1, 1] "SAME"
        none 8 6 true true).2 = some e)
    ∧ (QuantizedConv2d_init ⟨TExpr.input, some 3⟩ 4 (5, 5) [1, 1] "SAME"
        none 8 6 true true).1.inputs = TExpr.quantAct TExpr.input 6 :=
  QuantizedConv2d_reject_after_quantAct ⟨TExpr.input, some 3⟩ 4 (5, 5) [1, 1]
    "SAME" none 8 6 true true (by decide)
